import Mathlib

/-!
Verification of the CVE/Notice query-and-aggregation engine of the
www.ubuntu.com security webapp (`webapp/security/views.py`).

The Python code is shallowly embedded: the relational store is a record of
row lists, one SQLAlchemy session's buffered writes become values that are
only folded into the store by an explicit commit step, and the commit's
store-level outcome (success, `DataError`, `IntegrityError`) is a parameter,
since constraint checking lives in the external database engine.  Python
strings are Lean `String`s manipulated through their code-point lists
(Python `str` is a sequence of code points); `str.lower`/`str.upper` are
modelled on ASCII, which covers every identifier the engine handles.
JSON payloads are structures whose optional fields are `Option`s; `none`
models an absent key (the code reads payloads with `.get`, so an absent key
and an explicit JSON `null` are indistinguishable to it).
-/

namespace Usn

/-! ## String helpers (code-point based, so that everything evaluates) -/

/-- Lexicographic comparison of code-point lists: exactly Python's `<` on `str`. -/
def charListLt : List Char → List Char → Bool
  | [], [] => false
  | [], _ :: _ => true
  | _ :: _, [] => false
  | a :: as, b :: bs => if a < b then true else if b < a then false else charListLt as bs

def strLt (a b : String) : Bool := charListLt a.data b.data

def strLower (s : String) : String := ⟨s.data.map Char.toLower⟩

def strUpper (s : String) : String := ⟨s.data.map Char.toUpper⟩

/-- Does `p` occur at the start of `l`? -/
def subAt : List Char → List Char → Bool
  | [], _ => true
  | _ :: _, [] => false
  | a :: as, b :: bs => a == b && subAt as bs

/-- Does `needle` occur anywhere inside `hay`? -/
def subAnywhere (needle : List Char) : List Char → Bool
  | [] => needle.isEmpty
  | c :: t => subAt needle (c :: t) || subAnywhere needle t

/-- SQL `ILIKE '%needle%'`: case-insensitive containment. -/
def containsCI (hay needle : String) : Bool :=
  subAnywhere (needle.data.map Char.toLower) (hay.data.map Char.toLower)

/-- Python `str.startswith`. -/
def pyStartsWith (s p : String) : Bool := subAt p.data s.data

/-- Python slicing `s[n:]` (by code points). -/
def pyDrop (s : String) (n : Nat) : String := ⟨s.data.drop n⟩

def isSpaceChar (c : Char) : Bool := c == ' ' || c == '\t' || c == '\n' || c == '\r'

/-- Python `str.strip()` (on the whitespace the engine ever meets). -/
def pyStrip (s : String) : String :=
  ⟨((s.data.dropWhile isSpaceChar).reverse.dropWhile isSpaceChar).reverse⟩

/-! ## Python truthiness of `.get` results -/

/-- `data.get(k)` used in a boolean position: `None` and `""` are falsy. -/
def truthyStr : Option String → Option String
  | some s => if s.data.isEmpty then none else some s
  | none => none

/-- `data.get(k)` on a list value in a boolean position: `None` and `[]` are falsy. -/
def truthyList : Option (List α) → Option (List α)
  | some l => if l.isEmpty then none else some l
  | none => none

/-- Python `set(...)` over strings; iteration is modelled in first-occurrence
order (the real set order is unspecified, and nothing proved here depends on it). -/
def pySet (l : List String) : List String :=
  l.foldl (fun acc x => if acc.contains x then acc else acc ++ [x]) []

/-! ## Python dict helpers (insertion-ordered association lists) -/

/-- `d[k] = v`: replace in place if the key exists, else append. -/
def dictSet (m : List (String × β)) (k : String) (v : β) : List (String × β) :=
  match m with
  | [] => [(k, v)]
  | (k', v') :: rest => if k' == k then (k, v) :: rest else (k', v') :: dictSet rest k v

/-- `d[k].append(x)` (no-op when the key is absent; callers set it first). -/
def dictAppend (m : List (String × List β)) (k : String) (x : β) : List (String × List β) :=
  match m with
  | [] => []
  | (k', l) :: rest => if k' == k then (k', l ++ [x]) :: rest else (k', l) :: dictAppend rest k x

/-- `set.add`: insert if not already present. -/
def setInsert (s : List String) (x : String) : List String :=
  if x ∈ s then s else s ++ [x]

instance exceptDecEq {ε α : Type} [DecidableEq ε] [DecidableEq α] :
    DecidableEq (Except ε α) := fun a b =>
  match a, b with
  | .error e, .error f =>
    if h : e = f then .isTrue (by rw [h]) else .isFalse (fun hc => by cases hc; exact h rfl)
  | .error _, .ok _ => .isFalse (fun hc => by cases hc)
  | .ok _, .error _ => .isFalse (fun hc => by cases hc)
  | .ok x, .ok y =>
    if h : x = y then .isTrue (by rw [h]) else .isFalse (fun hc => by cases hc; exact h rfl)

/-! ## Entity model (rows of the relational store) -/

/-- `dateutil.parser.parse`, an external pure function, modelled injectively. -/
structure ParsedDate where
  raw : String
deriving DecidableEq

def parse (s : String) : ParsedDate := ⟨s⟩

/-- `datetime.fromtimestamp`, external, modelled injectively. -/
def fromtimestamp (n : Nat) : ParsedDate := ⟨Nat.repr n⟩

structure ReleaseRow where
  id : Nat
  name : String
  version : String
  codename : String
deriving DecidableEq

/-- A row of the `CVEReference` table (CVE references, identity by URI). -/
structure CVERefRow where
  id : Nat
  uri : String
deriving DecidableEq

/-- A row of the `Reference` table (notice references). -/
structure RefRow where
  id : Nat
  uri : String
deriving DecidableEq

structure BugRow where
  id : Nat
  uri : String
deriving DecidableEq

/-- The `notes` attribute: the create path defaults an absent key to `[]`,
the update path to `None`, so the stored value needs all three shapes. -/
inductive NotesField
  | fromStr (s : String)
  | emptyListDefault
  | nullValue
deriving DecidableEq

structure PackageReleaseStatus where
  name : String
  status : String
  status_description : String
  release : List ReleaseRow
deriving DecidableEq

structure Package where
  name : String
  source : String
  ubuntu : String
  debian : String
  releases : List PackageReleaseStatus
deriving DecidableEq

/-- What one iteration of a CVE write path appends to `cve.references`:
an existing row fetched by URI, a freshly constructed `CVEReference(uri=...)`,
or (update path, lookup miss) the bare URI string itself. -/
inductive CVERefAttached
  | existingRef (r : CVERefRow)
  | newRef (uri : String)
  | rawStr (uri : String)
deriving DecidableEq

inductive BugAttached
  | existingBug (b : BugRow)
  | newBug (uri : String)
deriving DecidableEq

structure CVERow where
  id : String
  status : Option String := none
  last_updated_date : Option ParsedDate := none
  public_date_usn : Option ParsedDate := none
  public_date : Option ParsedDate := none
  priority : Option String := none
  crd : Option String := none
  cvss : Option String := none
  assigned_to : Option String := none
  discovered_by : Option String := none
  approved_by : Option String := none
  description : Option String := none
  ubuntu_description : Option String := none
  notes : NotesField := .nullValue
  packages : List Package := []
  references : List CVERefAttached := []
  bugs : List BugAttached := []
deriving DecidableEq

/-- One entry of a notice's per-release `sources` blob.  Only `description`
is ever read by the engine; the other free-form JSON keys are dropped. -/
structure PkgInfo where
  description : Option String := none
deriving DecidableEq

/-- The stored per-release blob; `.get("sources", {})` means the key may be absent. -/
structure ReleasePkgBlob where
  sources : Option (List (String × PkgInfo)) := none
deriving DecidableEq

inductive CVEAttach
  | existing (c : CVERow)
  | created (id : String)
deriving DecidableEq

inductive RefAttached
  | existing (r : RefRow)
  | created (uri : String)
deriving DecidableEq

structure NoticeRow where
  id : String
  title : String := ""
  published : ParsedDate := ⟨""⟩
  summary : String := ""
  isummary : Option String := none
  details : String := ""
  instructions : Option String := none
  packages : List (String × ReleasePkgBlob) := []
  cves : List CVEAttach := []
  references : List RefAttached := []
  releases : List ReleaseRow := []
deriving DecidableEq

/-- The relational store. -/
structure DB where
  cves : List CVERow := []
  notices : List NoticeRow := []
  releases : List ReleaseRow := []
  cve_references : List CVERefRow := []
  references : List RefRow := []
  bugs : List BugRow := []
deriving DecidableEq

/-- `db_session.query(CVE).get(id)`: primary-key lookup, exact match. -/
def DB.getCVE (db : DB) (id : String) : Option CVERow :=
  db.cves.find? (fun c => c.id == id)

def DB.getNotice (db : DB) (id : String) : Option NoticeRow :=
  db.notices.find? (fun n => n.id == id)

inductive QueryErr
  | noResultFound
  | multipleResultsFound
deriving DecidableEq

/-- SQLAlchemy `.one()`: exactly one row or an exception. -/
def queryOne : List α → Except QueryErr α
  | [] => .error .noResultFound
  | [a] => .ok a
  | _ :: _ :: _ => .error .multipleResultsFound

/-! ## Failure and response shapes -/

inductive PyError
  | nameError (v : String)
  | attributeError
  | multipleResultsFound
  | dbError (msg : String)
  | unmappedInstance
deriving DecidableEq

/-- Outcome of the single `db_session.commit()`, decided by the external
store: success, a type/value violation (`DataError`), or a constraint
violation (`IntegrityError`), each carrying the driver's message. -/
inductive CommitOutcome
  | success
  | dataError (msg : String)
  | integrityError (msg : String)
deriving DecidableEq

/-- A JSON API response: `ok` (2xx with message), a structured 400, or an
exception escaping the handler (which the framework turns into a 500). -/
inductive ApiResp
  | ok (code : Nat) (message : String)
  | badRequest (message : String) (error : Option String)
  | unhandled (e : PyError)
deriving DecidableEq

def ApiResp.is400 : ApiResp → Bool
  | .badRequest _ _ => true
  | _ => false

/-! ## Notice View Assembler (`notice` view, views.py lines 39-85) -/

inductive ViewErr
  | notFound
  | releaseLookup (e : QueryErr)
  | missingInstructions
deriving DecidableEq

structure NoticeView where
  id : String
  title : String
  published : ParsedDate
  summary : String
  isummary : Option String
  details : String
  instructions : String
  packages : List String
  releases_packages : List (String × List (String × PkgInfo))
  releases : List ReleaseRow
  cves : List CVEAttach
  references : List RefAttached
deriving DecidableEq

/-- The flat-list string for one package:
`f"{name} - {description}" if description else name` — a truthiness test, so
both an absent and an empty-string description yield the bare name. -/
def pkgString (name : String) (info : PkgInfo) : String :=
  match truthyStr info.description with
  | some d => name ++ " - " ++ d
  | none => name

/-- Resolve a release codename to its version string via `.one()`. -/
def assembleRelease (db : DB) (codename : String) : Except ViewErr String :=
  match queryOne (db.releases.filter (fun r => r.codename == codename)) with
  | .ok r => .ok r.version
  | .error e => .error (.releaseLookup e)

/-- One iteration of the `for release, packages in notice.packages.items()` loop:
state is `(notice_packages, releases_packages)`. -/
def assembleStep (db : DB) (st : List String × List (String × List (String × PkgInfo)))
    (entry : String × ReleasePkgBlob) :
    Except ViewErr (List String × List (String × List (String × PkgInfo))) :=
  match assembleRelease db entry.1 with
  | .error e => .error e
  | .ok version =>
    let rp := dictSet st.2 version []
    .ok ((entry.2.sources.getD []).foldl
      (fun acc src =>
        (setInsert acc.1 (pkgString src.1 src.2), dictAppend acc.2 version (src.1, src.2)))
      (st.1, rp))

/-- The comparison `sorted(..., reverse=True)` orders by: the left pair's key
is not lexicographically below the right one's. -/
def verGe (a b : String × List (String × PkgInfo)) : Prop := strLt a.1 b.1 = false

instance verGe.dec : DecidableRel verGe := fun a b => Bool.decEq (strLt a.1 b.1) false

/-- `OrderedDict(sorted(releases_packages.items(), reverse=True))`: Python sorts
the pairs descending, which with pairwise-distinct keys is a stable sort by the
version string, Python string `>` being lexicographic on code points. -/
def releasesPackagesSort (m : List (String × List (String × PkgInfo))) :
    List (String × List (String × PkgInfo)) :=
  m.insertionSort verGe

/-- Assemble the view model of one notice.  `md` is the external
`markdown_parser`; calling it on a `None` instructions column is the
Python-level failure modelled by `missingInstructions`. -/
def assembleNotice (md : String → String) (db : DB) (n : NoticeRow) :
    Except ViewErr NoticeView :=
  match n.packages.foldlM (assembleStep db) ([], []) with
  | .error e => .error e
  | .ok st =>
    match n.instructions with
    | none => .error .missingInstructions
    | some ins =>
      .ok {
        id := n.id
        title := n.title
        published := n.published
        summary := n.summary
        isummary := n.isummary
        details := md n.details
        instructions := md ins
        packages := st.1
        releases_packages := releasesPackagesSort st.2
        releases := n.releases
        cves := n.cves
        references := n.references
      }

/-- The `notice(notice_id)` view: 404 on a missing id, then assembly. -/
def notice (md : String → String) (db : DB) (notice_id : String) :
    Except ViewErr NoticeView :=
  match db.getNotice notice_id with
  | none => .error .notFound
  | some n => assembleNotice md db n

/-! ## Notices index (`notices` view, views.py lines 88-137) -/

structure Pagination where
  current_page : Int
  total_pages : Nat
  total_results : Nat
  page_first_result : Int
  page_last_result : Int
deriving DecidableEq

inductive NoticesResult
  | notFound
  | page (notices : List NoticeRow) (pagination : Pagination)
deriving DecidableEq

def noticeMatchesRelease (n : NoticeRow) (codename : String) : Bool :=
  n.releases.any (fun r => r.codename == codename)

/-- The two conjunctive filters, applied in source order (release, then details). -/
def noticesFiltered (db : DB) (details release : Option String) : List NoticeRow :=
  let q := db.notices
  let q := match truthyStr release with
    | some rel => q.filter (fun n => noticeMatchesRelease n rel)
    | none => q
  match truthyStr details with
  | some d => q.filter (fun n => containsCI n.details d)
  | none => q

def notices_total_results (db : DB) (details release : Option String) : Nat :=
  (noticesFiltered db details release).length

/-- `ceil(total_results / page_size)` with `page_size = 10`. -/
def notices_total_pages (db : DB) (details release : Option String) : Nat :=
  (notices_total_results db details release + 9) / 10

/-- `order_by(sort(Notice.published))` with `sort = asc if order == "oldest" else desc`. -/
def sortNotices (order : Option String) (l : List NoticeRow) : List NoticeRow :=
  if order == some ("oldest") then
    l.insertionSort (fun a b => !(strLt b.published.raw a.published.raw) = true)
  else
    l.insertionSort (fun a b => !(strLt a.published.raw b.published.raw) = true)

/-- The `notices()` view.  `1 < page > total_pages` is Python chained
comparison: `1 < page and page > total_pages`. -/
def notices (db : DB) (page : Int) (details release order : Option String) :
    NoticesResult :=
  let total_results := notices_total_results db details release
  let total_pages := notices_total_pages db details release
  let offset : Int := page * 10 - 10
  if page < 1 || (1 < page && page > (total_pages : Int)) then
    .notFound
  else
    let ns := ((sortNotices order (noticesFiltered db details release)).drop offset.toNat).take 10
    .page ns {
      current_page := page
      total_pages := total_pages
      total_results := total_results
      page_first_result := offset + 1
      page_last_result := offset + ns.length
    }

/-! ## CVE index (`cve_index` view, views.py lines 275-343) -/

/-- `re.match(r"^CVE-\d{4}-\d{4,7}$", s)` on an already-uppercased query. -/
def cvePatternMatch (s : String) : Bool :=
  let l := s.data
  (l.take 4 == [ 'C', 'V', 'E', '-' ]) &&
  (let rest := l.drop 4
   let d1 := rest.takeWhile Char.isDigit
   let r1 := rest.dropWhile Char.isDigit
   (d1.length == 4) &&
   (match r1 with
    | [] => false
    | c :: rest2 =>
      (c == '-') &&
      (let d2 := rest2.takeWhile Char.isDigit
       let r2 := rest2.dropWhile Char.isDigit
       decide (4 ≤ d2.length) && decide (d2.length ≤ 7) && r2.isEmpty)))

structure CveIndexPage where
  cves : List CVERow
  total_results : Nat
  total_pages : Nat
  offset : Nat
  limit : Nat
deriving DecidableEq

inductive CveIndexResp
  | redirect (location : String)
  | page (p : CveIndexPage)
deriving DecidableEq

/-- The three conjunctive search filters, in source order (package, priority, q). -/
def cvesFiltered (db : DB) (q : String) (priority package : Option String) : List CVERow :=
  let cq := db.cves
  let cq := match truthyStr package with
    | some p => cq.filter (fun c => c.packages.any (fun pk => containsCI pk.name p))
    | none => cq
  let cq := match truthyStr priority with
    | some pr => cq.filter (fun c => c.priority == some pr)
    | none => cq
  if q.data.isEmpty then cq
  else cq.filter (fun c =>
    match c.description with
    | some d => containsCI d q
    | none => false)

/-- Whether a CVE row passes the description ILIKE filter (NULL never matches). -/
def descMatches (c : CVERow) (q : String) : Bool :=
  match c.description with
  | some d => containsCI d q
  | none => false

/-- Postgres ordering of nullable dates: ASC puts NULLs last, DESC first. -/
def sortCves (order_by : String) (l : List CVERow) : List CVERow :=
  if order_by == ("oldest" : String) then
    l.insertionSort (fun a b =>
      (match a.public_date, b.public_date with
       | none, _ => false
       | some _, none => true
       | some x, some y => !(strLt y.raw x.raw)) = true)
  else
    l.insertionSort (fun a b =>
      (match a.public_date, b.public_date with
       | none, _ => true
       | some _, none => false
       | some x, some y => !(strLt x.raw y.raw)) = true)

/-- The non-redirect branch of `cve_index`: filter, sort, slice, count. -/
def cveIndexPageFor (db : DB) (order_by q : String) (priority package : Option String)
    (limit offset : Nat) : CveIndexPage :=
  let filtered := cvesFiltered db q priority package
  { cves := ((sortCves order_by filtered).drop offset).take limit
    total_results := filtered.length
    total_pages := (filtered.length + limit - 1) / limit
    offset := offset
    limit := limit }

/-- The `cve_index()` view: redirect on an existing exact CVE id, else search. -/
def cve_index (db : DB) (order_by q : String) (priority package : Option String)
    (limit offset : Nat) : CveIndexResp :=
  let query := pyStrip q
  let is_cve_id := cvePatternMatch (strUpper query)
  if is_cve_id && (db.getCVE (strUpper query)).isSome then
    .redirect ("/security/" ++ strLower query)
  else
    .page (cveIndexPageFor db order_by query priority package limit offset)

/-! ## Single-notice creation (`create_notice`, views.py lines 199-270) -/

/-- The payload after `NoticeSchema` validation (the schema itself lives in the
external `webapp.security.schemas`): required scalars, the releases mapping,
and the optional `references`/`action`/`isummary` keys. -/
structure NoticeData where
  notice_id : String
  title : String
  summary : String
  description : String
  timestamp : Nat
  releases : List (String × ReleasePkgBlob)
  references : Option (List String) := none
  action : Option String := none
  isummary : Option String := none
deriving DecidableEq

inductive ReleaseResolveErr
  | badCodename (c : String)
  | internal (e : PyError)
deriving DecidableEq

/-- The `for release_codename in data["releases"].keys()` loop: `.one()` per
codename; `NoResultFound` is caught (and becomes the 400), any other query
exception escapes. -/
def resolveReleases (db : DB) : List String → Except ReleaseResolveErr (List ReleaseRow)
  | [] => .ok []
  | c :: rest =>
    match queryOne (db.releases.filter (fun r => r.codename == c)) with
    | .ok r =>
      match resolveReleases db rest with
      | .ok rs => .ok (r :: rs)
      | .error e => .error e
    | .error .noResultFound => .error (.badCodename c)
    | .error .multipleResultsFound => .error (.internal .multipleResultsFound)

/-- The reference-splitting loop: entries starting with `"CVE-"` become CVE
links keyed by `ref[4:]` (the prefix is stripped), anything else is a plain
`Reference` resolved by URI or created. -/
def linkRefs (db : DB) : List String → List CVEAttach × List RefAttached
  | [] => ([], [])
  | ref :: rest =>
    let (cs, rs) := linkRefs db rest
    if pyStartsWith ref ("CVE-") then
      let cve_id := pyDrop ref 4
      match db.getCVE cve_id with
      | some c => (.existing c :: cs, rs)
      | none => (.created cve_id :: cs, rs)
    else
      match db.references.find? (fun r => r.uri == ref) with
      | some r => (cs, .existing r :: rs)
      | none => (cs, .created ref :: rs)

/-- Fold a committed notice into the store: the notice row itself, plus the
`CVE` and `Reference` rows its write cascaded into existence. -/
def applyNotice (db : DB) (n : NoticeRow) : DB :=
  let newCves := n.cves.filterMap (fun a =>
    match a with
    | .created id => some ({ id := id } : CVERow)
    | .existing _ => none)
  let newRefUris := n.references.filterMap (fun a =>
    match a with
    | .created uri => some uri
    | .existing _ => none)
  let start := (db.references.map (fun r => r.id)).foldl Nat.max 0 + 1
  { db with
    notices := db.notices ++ [n]
    cves := db.cves ++ newCves
    references := db.references ++ newRefUris.enum.map (fun p => ⟨start + p.1, p.2⟩) }

/-- `create_notice` after schema validation: build the row, resolve releases
(400 naming the first bad codename, before any session write), split
references, then one commit (only `IntegrityError` is caught there). -/
def create_notice (db : DB) (data : NoticeData) (outcome : CommitOutcome) :
    DB × ApiResp :=
  let base : NoticeRow := {
    id := data.notice_id
    title := data.title
    summary := data.summary
    details := data.description
    packages := data.releases
    published := fromtimestamp data.timestamp
    instructions := data.action
    isummary := data.isummary
  }
  match resolveReleases db (data.releases.map Prod.fst) with
  | .error (.badCodename c) =>
    (db, .badRequest ("No release with codename: " ++ c ++ ".") none)
  | .error (.internal e) => (db, .unhandled e)
  | .ok rels =>
    let refs := pySet (data.references.getD [])
    let links := linkRefs db refs
    let n := { base with releases := rels, cves := links.1, references := links.2 }
    match outcome with
    | .success => (applyNotice db n, .ok 201 ("Notice created"))
    | .integrityError _ =>
      (db, .badRequest ("Notice '" ++ data.notice_id ++ "' already exists") none)
    | .dataError m => (db, .unhandled (.dbError m))

/-! ## Bulk upsert (`prepare_cves_to_*`, `bulk_upsert_cve`, views.py 361-589) -/

structure ReleaseStatusData where
  name : String
  status : String
  status_description : String
deriving DecidableEq

structure PackageData where
  name : String
  source : String
  ubuntu : String
  debian : String
  releases : List ReleaseStatusData
deriving DecidableEq

/-- One CVE payload object of the bulk body.  `id` is required (the handler
subscripts it unconditionally); every other key is read with `.get`. -/
structure CVEPayload where
  id : String
  status : Option String := none
  last_updated_date : Option String := none
  public_date_usn : Option String := none
  public_date : Option String := none
  priority : Option String := none
  crd : Option String := none
  cvss : Option String := none
  assigned_to : Option String := none
  discovered_by : Option String := none
  approved_by : Option String := none
  description : Option String := none
  ubuntu_description : Option String := none
  notes : Option String := none
  packages : Option (List PackageData) := none
  references : Option (List String) := none
  bugs : Option (List String) := none
deriving DecidableEq

/-- `parse(data.get(k)) if data.get(k) else None`. -/
def parseDateField (v : Option String) : Option ParsedDate :=
  match truthyStr v with
  | some s => some (parse s)
  | none => none

/-- Build one `Package` with its `PackageReleaseStatus` children; each child's
codename is resolved with `.all()`, so every matching `Release` row is attached
(and a codename with no match yields an empty list, not an error).  The create
and update paths spell this construction differently in the source but compute
the same object. -/
def makePackage (db : DB) (pd : PackageData) : Package :=
  { name := pd.name
    source := pd.source
    ubuntu := pd.ubuntu
    debian := pd.debian
    releases := pd.releases.map (fun rd =>
      { name := rd.name
        status := rd.status
        status_description := rd.status_description
        release := db.releases.filter (fun r => r.codename == rd.name) }) }

/-- `prepare_cves_to_create`: fresh `CVEReference`/`Bug` objects are appended
for every URI — no lookup by URI happens on this path. -/
def prepare_cves_to_create (db : DB) (cve_data : List CVEPayload) : List CVERow :=
  cve_data.map (fun data =>
    { id := data.id
      status := some (data.status.getD (""))
      last_updated_date := parseDateField data.last_updated_date
      public_date_usn := parseDateField data.public_date_usn
      public_date := parseDateField data.public_date
      priority := data.priority
      crd := none
      cvss := data.cvss
      assigned_to := data.assigned_to
      discovered_by := data.discovered_by
      approved_by := data.approved_by
      description := data.description
      ubuntu_description := data.ubuntu_description
      notes := match data.notes with
        | some s => NotesField.fromStr s
        | none => NotesField.emptyListDefault
      packages := match truthyList data.packages with
        | some pl => pl.map (makePackage db)
        | none => []
      references := match truthyList data.references with
        | some rl => rl.map (fun uri => CVERefAttached.newRef uri)
        | none => []
      bugs := match truthyList data.bugs with
        | some bl => bl.map (fun uri => BugAttached.newBug uri)
        | none => [] })

/-- The rebuilt references list of the update path: looked up by URI in the
`CVEReference` table, reusing the row when found and otherwise appending the
bare URI string (`reference = uri` in the source). -/
def rebuiltRefs (db : DB) (uris : List String) : List CVERefAttached :=
  uris.map (fun u =>
    match db.cve_references.find? (fun r => r.uri == u) with
    | some r => CVERefAttached.existingRef r
    | none => CVERefAttached.rawStr u)

/-- The bug objects the update path appends once `uri` is bound to `u`: each
lookup filters `Bug.uri == u` — the leftover references-loop variable, not
this bug's URI `b`. -/
def rebuiltBugsList (db : DB) (bs : List String) (u : String) : List BugAttached :=
  bs.map (fun b =>
    match db.bugs.find? (fun r => r.uri == u) with
    | some bug => BugAttached.existingBug bug
    | none => BugAttached.newBug b)

/-- The rebuilt bugs list of the update path; when the `uri` variable was
never bound, Python raises `NameError` at the first lookup. -/
def rebuiltBugs (db : DB) (bs : List String) (uriVar : Option String) :
    Except PyError (List BugAttached) :=
  match uriVar with
  | none => .error (.nameError ("uri"))
  | some u => .ok (rebuiltBugsList db bs u)

/-- The block of scalar attribute assignments of the update path
(`cve.status = data.get("status")` through `cve.notes = data.get("notes")`):
every scalar column is overwritten, an absent key becoming null. -/
def scalarOverwrite (cve : CVERow) (data : CVEPayload) : CVERow :=
  { cve with
    status := data.status
    last_updated_date := parseDateField data.last_updated_date
    public_date_usn := parseDateField data.public_date_usn
    public_date := parseDateField data.public_date
    priority := data.priority
    crd := data.crd
    cvss := data.cvss
    assigned_to := data.assigned_to
    discovered_by := data.discovered_by
    approved_by := data.approved_by
    description := data.description
    ubuntu_description := data.ubuntu_description
    notes := match data.notes with
      | some s => NotesField.fromStr s
      | none => NotesField.nullValue }

/-- State threaded through `prepare_cves_to_update`: the rows mutated so far
and the current binding of the function-scoped `uri` variable. -/
structure UpdState where
  uriVar : Option String
  rows : List CVERow
deriving DecidableEq

/-- One iteration of the update loop: load by id (`None` would blow up at the
first attribute assignment), overwrite every scalar from the payload, and
clear-and-rebuild each of references/bugs/packages only when its key is
truthy. -/
def updateOne (db : DB) (st : UpdState) (data : CVEPayload) : Except PyError UpdState :=
  match db.getCVE data.id with
  | none => .error .attributeError
  | some cve =>
    let cve := scalarOverwrite cve data
    let refsStep : CVERow × Option String :=
      match truthyList data.references with
      | some uris => ({ cve with references := rebuiltRefs db uris }, uris.getLast?)
      | none => (cve, st.uriVar)
    let cve := refsStep.1
    let uriVar := refsStep.2
    let bugsStep : Except PyError (Option (List BugAttached)) :=
      match truthyList data.bugs with
      | some bs =>
        match rebuiltBugs db bs uriVar with
        | .ok bl => .ok (some bl)
        | .error e => .error e
      | none => .ok none
    match bugsStep with
    | .error e => .error e
    | .ok ob =>
      let cve := match ob with
        | some bl => { cve with bugs := bl }
        | none => cve
      let cve := match truthyList data.packages with
        | some pl => { cve with packages := pl.map (makePackage db) }
        | none => cve
      .ok { uriVar := uriVar, rows := st.rows ++ [cve] }

def prepare_cves_to_update (db : DB) (cve_data : List CVEPayload) :
    Except PyError (List CVERow) :=
  match cve_data.foldlM (updateOne db) ({ uriVar := none, rows := [] } : UpdState) with
  | .ok st => .ok st.rows
  | .error e => .error e

/-- The request body: a JSON array of payloads, or anything else
(`type(cves_data) == list` fails). -/
inductive BulkBody
  | arr (l : List CVEPayload)
  | notArray
deriving DecidableEq

/-- Does the row carry a bare URI string in its references collection
(`reference = uri` after a lookup miss on the update path)?  The ORM cannot
flush such a collection: `commit()` raises an unmapped-instance error, so no
successful commit ever includes such a row. -/
def rowHasRawStr (c : CVERow) : Bool :=
  c.references.any (fun a =>
    match a with
    | .rawStr _ => true
    | _ => false)

/-- Fold one successful bulk commit into the store: updated rows replace their
old versions, created rows are appended, and the fresh `CVEReference`/`Bug`
objects buffered on the rows become table rows.  Only reached for rows without
bare-string references (see `rowHasRawStr`). -/
def applyBulkCommit (db : DB) (updated created : List CVERow) : DB :=
  let keep := db.cves.filter (fun c => !(updated.any (fun u => u.id == c.id)))
  let allNew := updated ++ created
  let newRefUris := allNew.foldl (fun acc c =>
    acc ++ c.references.filterMap (fun a =>
      match a with
      | .newRef u => some u
      | _ => none)) []
  let newBugUris := allNew.foldl (fun acc c =>
    acc ++ c.bugs.filterMap (fun a =>
      match a with
      | .newBug u => some u
      | _ => none)) []
  let rstart := (db.cve_references.map (fun r => r.id)).foldl Nat.max 0 + 1
  let bstart := (db.bugs.map (fun r => r.id)).foldl Nat.max 0 + 1
  { db with
    cves := keep ++ updated ++ created
    cve_references := db.cve_references ++ newRefUris.enum.map (fun p => ⟨rstart + p.1, p.2⟩)
    bugs := db.bugs ++ newBugUris.enum.map (fun p => ⟨bstart + p.1, p.2⟩) }

/-- `bulk_upsert_cve`: reject a non-array body, partition by id existence,
prepare updates then creates, and commit once.  The `try` block catches only
`DataError`; every other exception (including `IntegrityError`, the
`NameError` out of `prepare_cves_to_update`, and the ORM's unmapped-instance
error when a bare URI string was appended to a references collection) escapes
unhandled.  `outcome` is the external store's verdict on the flushed batch;
even a store-accepted batch cannot commit while a row carries a bare-string
reference — the flush fails first, unhandled, with nothing written. -/
def bulk_upsert_cve (db : DB) (body : BulkBody) (outcome : CommitOutcome) :
    DB × ApiResp :=
  match body with
  | .notArray => (db, .badRequest ("Please, submit a list (array) of CVEs") none)
  | .arr cves_data =>
    let cves_to_update := cves_data.filter (fun d => (db.getCVE d.id).isSome)
    let cves_to_create := cves_data.filter (fun d => !(db.getCVE d.id).isSome)
    match prepare_cves_to_update db cves_to_update with
    | .error e => (db, .unhandled e)
    | .ok updated =>
      let created := prepare_cves_to_create db cves_to_create
      match outcome with
      | .success =>
        if (updated ++ created).any rowHasRawStr then
          (db, .unhandled .unmappedInstance)
        else
          (applyBulkCommit db updated created,
           .ok 200 ("Successfully finished bulk upserting session"))
      | .dataError m => (db, .badRequest ("Failed bulk upserting session") (some m))
      | .integrityError m => (db, .unhandled (.dbError m))

/-! ## Concrete stores and payloads used to settle the claims -/

/-- A store holding one `CVEReference` row. -/
def dbRef : DB := { cve_references := [⟨1, "https://r"⟩] }

/-- A store holding one CVE that already carries one reference row. -/
def dbUpd : DB := { cves := [{ id := "X", references := [.existingRef ⟨1, "u"⟩] }] }

/-- Karmic (9.10) and Lucid (10.04): version strings whose lexicographic and
numeric orders disagree. -/
def dbKL : DB := { releases := [⟨1, "Karmic", "9.10", "karmic"⟩, ⟨2, "Lucid", "10.04", "lucid"⟩] }

def nKL : NoticeRow where
  id := "1"
  instructions := some ""
  packages := [("karmic", { sources := some [("pkgA", {})] }),
               ("lucid", { sources := some [("pkgA", {})] })]

/-- Xenial (16.04) and Focal (20.04), as in the specification's example. -/
def dbXF : DB := { releases := [⟨1, "Xenial", "16.04", "xenial"⟩, ⟨2, "Focal", "20.04", "focal"⟩] }

def nXF : NoticeRow where
  id := "2"
  instructions := some ""
  packages := [("focal", { sources := some [("pkgA", { description := some "d" })] }),
               ("xenial", { sources := some [("pkgA", {})] })]

def nMd : NoticeRow := { id := "3", details := "d", instructions := some "i" }

/-- The view `assembleNotice (fun s => "md:" ++ s) {} nMd` computes. -/
def vMd : NoticeView where
  id := "3"
  title := ""
  published := ⟨""⟩
  summary := ""
  isummary := none
  details := "md:d"
  instructions := "md:i"
  packages := []
  releases_packages := []
  releases := []
  cves := []
  references := []

def dbFocal : DB := { releases := [⟨1, "Focal", "20.04", "focal"⟩] }

def dataWarty : NoticeData where
  notice_id := "4000-1"
  title := "t"
  summary := "s"
  description := "d"
  timestamp := 0
  releases := [("focal", {}), ("warty", {})]

def dataCveRef : NoticeData where
  notice_id := "4001-1"
  title := "t"
  summary := "s"
  description := "d"
  timestamp := 0
  releases := [("focal", {})]
  references := some ["CVE-2020-10535"]

/-- Two existing CVEs, a `CVEReference` row whose URI equals the first
payload's reference URI (so that payload's rebuild reuses the row and the
flush stays well-formed), and a `Bug` row with that same URI. -/
def dbAB : DB := { cves := [{ id := "A" }, { id := "B" }],
                   cve_references := [⟨3, "r1"⟩], bugs := [⟨7, "r1"⟩] }

def batchAB : BulkBody := .arr [{ id := "A", references := some ["r1"] },
                                { id := "B", bugs := some ["b1"] }]

/-! ## C1 — bulk upsert atomicity and failure reporting -/

/-- C1, counterexample: a constraint violation (`IntegrityError`) during the
bulk commit does not produce the claimed 400 — the exception escapes the
handler (only `DataError` is caught); the store is untouched all the same. -/
theorem C1_integrity_error_escapes :
    (bulk_upsert_cve {} (.arr [{ id := "CVE-2024-0001" }])
        (.integrityError ("duplicate key value"))).2
      = ApiResp.unhandled (.dbError ("duplicate key value")) ∧
    ((bulk_upsert_cve {} (.arr [{ id := "CVE-2024-0001" }])
        (.integrityError ("duplicate key value"))).2).is400 = false ∧
    (bulk_upsert_cve {} (.arr [{ id := "CVE-2024-0001" }])
        (.integrityError ("duplicate key value"))).1 = {} := by
  decide

/-- C1, amended: for any batch whose update preparation succeeds, a `DataError`
at the single commit leaves the store unchanged and yields the structured 400
with the driver's message, while an `IntegrityError` also leaves the store
unchanged but escapes as an unhandled exception instead of a 400. -/
theorem C1_commit_failure_amended (db : DB) (l : List CVEPayload) (msg : String)
    (ups : List CVERow)
    (h : prepare_cves_to_update db (l.filter (fun d => (db.getCVE d.id).isSome)) = .ok ups) :
    bulk_upsert_cve db (.arr l) (.dataError msg)
        = (db, .badRequest ("Failed bulk upserting session") (some msg)) ∧
    bulk_upsert_cve db (.arr l) (.integrityError msg) = (db, .unhandled (.dbError msg)) := by
  simp only [bulk_upsert_cve, h]
  exact ⟨trivial, trivial⟩

theorem C1_commit_failure_witness :
    bulk_upsert_cve {} (.arr [{ id := "CVE-2024-0001" }]) (.dataError ("bad type"))
        = ({}, .badRequest ("Failed bulk upserting session") (some ("bad type"))) :=
  (C1_commit_failure_amended {} [{ id := "CVE-2024-0001" }] ("bad type") [] (by decide)).1

/-! ## C4 — out-of-range notice pages -/

/-- C4, counterexample: with zero matching notices, page 1 is past the last
page (`total_pages = 0`) and the claim also names this case explicitly, yet
the view renders an (empty) page instead of failing with a 404. -/
theorem C4_page_one_empty_not_404 :
    notices_total_results {} none none = 0 ∧
    (1 : Int) > (notices_total_pages {} none none : Int) ∧
    notices {} 1 none none none ≠ NoticesResult.notFound := by
  decide

/-- C4, amended: the notices view 404s exactly when `page < 1`, or `page > 1`
and `page` exceeds the page count; page 1 is always served, so a filtered
total of zero with `page = 1` yields an empty page, not a 404. -/
theorem C4_out_of_range_amended (db : DB) (page : Int) (details release order : Option String) :
    notices db page details release order = NoticesResult.notFound ↔
      (page < 1 ∨ (1 < page ∧ page > (notices_total_pages db details release : Int))) := by
  simp only [notices]
  split
  · rename_i h
    simp only [Bool.or_eq_true, Bool.and_eq_true, decide_eq_true_eq] at h
    simpa using h
  · rename_i h
    simp only [Bool.or_eq_true, Bool.and_eq_true, decide_eq_true_eq] at h
    push_neg at h
    constructor
    · intro hc
      exact absurd hc (by simp)
    · intro hc
      rcases hc with h1 | ⟨h2, h3⟩
      · exact absurd h1 (not_lt.mpr h.1)
      · exact absurd h3 (not_lt.mpr (h.2 h2))

/-! ## C6 — markdown is applied by the assembler -/

/-- C6, counterexample: the assembled view's `details` is the markdown
renderer's output, not the raw stored text. -/
theorem C6_details_transformed :
    (assembleNotice (fun s => ("md:" ++ s)) {} nMd).map (fun v => v.details)
        = .ok ("md:d") ∧
    (assembleNotice (fun s => ("md:" ++ s)) {} nMd).map (fun v => v.details)
        ≠ .ok nMd.details := by
  decide

/-- C6, amended: the assembler itself applies `markdown_parser` to the stored
`details` and `instructions` before exposing them in the view model. -/
theorem C6_markdown_applied_amended (md : String → String) (db : DB) (n : NoticeRow)
    (v : NoticeView) (i : String) (h : assembleNotice md db n = .ok v)
    (hi : n.instructions = some i) :
    v.details = md n.details ∧ v.instructions = md i := by
  unfold assembleNotice at h
  rcases hfold : n.packages.foldlM (assembleStep db)
      (([], []) : List String × List (String × List (String × PkgInfo))) with e | st
  · rw [hfold] at h
    cases h
  · rw [hfold, hi] at h
    cases h
    exact ⟨rfl, rfl⟩

theorem C6_markdown_applied_witness :
    vMd.details = "md:" ++ nMd.details ∧ vMd.instructions = "md:" ++ "i" :=
  C6_markdown_applied_amended (fun s => ("md:" ++ s)) {} nMd vMd "i" (by decide) rfl

/-! ## C2 — dedup-by-URI on the write paths -/

/-- C2, counterexample: the bulk create path performs no URI lookup, so a
batch creating a CVE with a reference URI already present in the
`CVEReference` table leaves two rows with that URI after the commit. -/
theorem C2_create_path_duplicates_uri :
    ((bulk_upsert_cve dbRef (.arr [{ id := "CVE-2024-0002", references := some ["https://r"] }])
        CommitOutcome.success).1.cve_references.filter (fun r => r.uri == "https://r")).length
      = 2 := by
  decide

/-- C2, amended: only two of the three write paths look a Reference up by URI
before inserting.  (a) The bulk create path never does: every reference/bug it
attaches is a freshly constructed object.  (b) The bulk update path's
references rebuild (`rebuiltRefs`) reuses the existing `CVEReference` row when
the URI is found (its bug lookup, however, queries by the leftover references
variable, see C10).  (c) Notice creation reuses the existing `Reference` row
found by URI for non-CVE entries. -/
theorem C2_dedup_amended :
    (∀ (db : DB) (payloads : List CVEPayload) (row : CVERow),
      row ∈ prepare_cves_to_create db payloads →
        (∀ a ∈ row.references, ∃ u, a = CVERefAttached.newRef u) ∧
        (∀ b ∈ row.bugs, ∃ u, b = BugAttached.newBug u)) ∧
    (∀ (db : DB) (uris : List String) (u : String) (r : CVERefRow),
      u ∈ uris → db.cve_references.find? (fun x => x.uri == u) = some r →
        CVERefAttached.existingRef r ∈ rebuiltRefs db uris) ∧
    (∀ (db : DB) (refs : List String) (u : String) (r : RefRow),
      u ∈ refs → pyStartsWith u ("CVE-") = false →
        db.references.find? (fun x => x.uri == u) = some r →
        RefAttached.existing r ∈ (linkRefs db refs).2) := by
  refine ⟨?_, ?_, ?_⟩
  · intro db payloads row hrow
    rcases List.mem_map.mp hrow with ⟨data, _, rfl⟩
    constructor
    · intro a ha
      rcases htl : truthyList data.references with _ | rl
      · rw [htl] at ha
        cases ha
      · rw [htl] at ha
        rcases List.mem_map.mp ha with ⟨u, _, rfl⟩
        exact ⟨u, rfl⟩
    · intro b hb
      rcases htl : truthyList data.bugs with _ | bl
      · rw [htl] at hb
        cases hb
      · rw [htl] at hb
        rcases List.mem_map.mp hb with ⟨u, _, rfl⟩
        exact ⟨u, rfl⟩
  · intro db uris u r hu hfind
    exact List.mem_map.mpr ⟨u, hu, by rw [hfind]⟩
  · intro db refs u r hu hcve hfind
    induction refs with
    | nil => cases hu
    | cons ref rest ih =>
      rcases List.mem_cons.mp hu with rfl | hu'
      · simp only [linkRefs, hcve]
        rcases hlr : linkRefs db rest with ⟨cs, rs⟩
        rw [hfind]
        exact List.mem_cons_self _ _
      · have hmem := ih hu'
        simp only [linkRefs]
        rcases hlr : linkRefs db rest with ⟨cs, rs⟩
        rw [hlr] at hmem
        split
        · split
          · exact hmem
          · exact hmem
        · split
          · exact List.mem_cons_of_mem _ hmem
          · exact List.mem_cons_of_mem _ hmem

theorem C2_dedup_witness :
    CVERefAttached.existingRef ⟨1, "https://r"⟩ ∈ rebuiltRefs dbRef ["https://r"] :=
  C2_dedup_amended.2.1 dbRef ["https://r"] ("https://r") ⟨1, "https://r"⟩
    (by decide) (by decide)

/-! ## C3 — update path: full scalar overwrite, conditional rebuild -/

/-- C3, counterexample: a payload whose `references` key is present but holds
the empty list does not clear the association — the existing reference rows
survive the update. -/
theorem C3_empty_list_key_not_cleared :
    (({ id := "X", references := some [] } : CVEPayload)).references = some [] ∧
    (prepare_cves_to_update dbUpd [{ id := "X", references := some [] }]).map
        (fun l => l.map (fun c => c.references))
      = .ok [[CVERefAttached.existingRef ⟨1, "u"⟩]] := by
  decide

/-- C3, amended: the update overwrites every scalar field of the loaded CVE
from the payload, absent fields becoming null; each of references, bugs and
packages is cleared and rebuilt only when its key holds a non-empty list (a
present-but-empty list leaves the association unchanged), and the bugs
rebuild additionally needs a references list in scope (else `NameError`,
see C10) and looks rows up by that leftover URI. -/
theorem C3_update_overwrite_amended (db : DB) (data : CVEPayload) (cve : CVERow)
    (hcve : db.getCVE data.id = some cve)
    (hsafe : truthyList data.bugs = none ∨ truthyList data.references ≠ none) :
    ∃ row, prepare_cves_to_update db [data] = .ok [row] ∧
      row.id = cve.id ∧
      row.status = data.status ∧
      row.last_updated_date = parseDateField data.last_updated_date ∧
      row.public_date_usn = parseDateField data.public_date_usn ∧
      row.public_date = parseDateField data.public_date ∧
      row.priority = data.priority ∧
      row.crd = data.crd ∧
      row.cvss = data.cvss ∧
      row.assigned_to = data.assigned_to ∧
      row.discovered_by = data.discovered_by ∧
      row.approved_by = data.approved_by ∧
      row.description = data.description ∧
      row.ubuntu_description = data.ubuntu_description ∧
      row.notes = (match data.notes with
        | some s => NotesField.fromStr s
        | none => NotesField.nullValue) ∧
      row.references = (match truthyList data.references with
        | some uris => rebuiltRefs db uris
        | none => cve.references) ∧
      row.packages = (match truthyList data.packages with
        | some pl => pl.map (makePackage db)
        | none => cve.packages) ∧
      (truthyList data.bugs = none → row.bugs = cve.bugs) ∧
      (∀ bs uris, truthyList data.bugs = some bs → truthyList data.references = some uris →
        rebuiltBugs db bs uris.getLast? = .ok row.bugs) := by
  have hne : ∀ (l : List String), truthyList data.references = some l → l.getLast?.isSome := by
    intro l hl
    rcases href' : data.references with _ | l'
    · rw [href'] at hl
      cases hl
    · rw [href'] at hl
      simp only [truthyList] at hl
      by_cases he : l'.isEmpty = true
      · rw [if_pos he] at hl
        cases hl
      · rw [if_neg he] at hl
        cases hl
        rw [List.getLast?_isSome]
        exact fun hnil => he (by rw [hnil]; rfl)
  rcases hb : truthyList data.bugs with _ | bs
  · -- bugs key falsy: the bugs association is untouched
    rcases href : truthyList data.references with _ | uris
    · rcases hp : truthyList data.packages with _ | pl
      · have hstep : updateOne db ({ uriVar := none, rows := [] } : UpdState) data
            = .ok { uriVar := none, rows := [scalarOverwrite cve data] } := by
          simp only [updateOne, hcve, hb, href, hp, List.nil_append]
        refine ⟨scalarOverwrite cve data, ?_, rfl, rfl, rfl, rfl, rfl, rfl, rfl, rfl, rfl,
          rfl, rfl, rfl, rfl, rfl, rfl, rfl, fun _ => rfl, ?_⟩
        · simp only [prepare_cves_to_update, List.foldlM_cons, hstep]
          rfl
        · intro bs' uris' hb' _
          cases hb'
      · have hstep : updateOne db ({ uriVar := none, rows := [] } : UpdState) data
            = .ok { uriVar := none, rows := [{ scalarOverwrite cve data with packages := pl.map (makePackage db) }] } := by
          simp only [updateOne, hcve, hb, href, hp, List.nil_append]
        refine ⟨{ scalarOverwrite cve data with packages := pl.map (makePackage db) },
          ?_, rfl, rfl, rfl, rfl, rfl, rfl, rfl, rfl, rfl, rfl, rfl, rfl, rfl, rfl,
          rfl, rfl, fun _ => rfl, ?_⟩
        · simp only [prepare_cves_to_update, List.foldlM_cons, hstep]
          rfl
        · intro bs' uris' hb' _
          cases hb'
    · rcases hp : truthyList data.packages with _ | pl
      · have hstep : updateOne db ({ uriVar := none, rows := [] } : UpdState) data
            = .ok { uriVar := uris.getLast?, rows := [{ scalarOverwrite cve data with references := rebuiltRefs db uris }] } := by
          simp only [updateOne, hcve, hb, href, hp, List.nil_append]
        refine ⟨{ scalarOverwrite cve data with references := rebuiltRefs db uris },
          ?_, rfl, rfl, rfl, rfl, rfl, rfl, rfl, rfl, rfl, rfl, rfl, rfl, rfl, rfl,
          rfl, rfl, fun _ => rfl, ?_⟩
        · simp only [prepare_cves_to_update, List.foldlM_cons, hstep]
          rfl
        · intro bs' uris' hb' _
          cases hb'
      · have hstep : updateOne db ({ uriVar := none, rows := [] } : UpdState) data
            = .ok { uriVar := uris.getLast?, rows := [{ scalarOverwrite cve data with references := rebuiltRefs db uris, packages := pl.map (makePackage db) }] } := by
          simp only [updateOne, hcve, hb, href, hp, List.nil_append]
        refine ⟨{ scalarOverwrite cve data with references := rebuiltRefs db uris, packages := pl.map (makePackage db) },
          ?_, rfl, rfl, rfl, rfl, rfl, rfl, rfl, rfl, rfl, rfl, rfl, rfl, rfl, rfl,
          rfl, rfl, fun _ => rfl, ?_⟩
        · simp only [prepare_cves_to_update, List.foldlM_cons, hstep]
          rfl
        · intro bs' uris' hb' _
          cases hb'
  · -- bugs key truthy: hsafe forces a truthy references key
    rcases hsafe with hsafe | hsafe
    · rw [hb] at hsafe
      cases hsafe
    · rcases href : truthyList data.references with _ | uris
      · exact absurd href hsafe
      · rcases Option.isSome_iff_exists.mp (hne uris href) with ⟨u, hu⟩
        rcases hp : truthyList data.packages with _ | pl
        · have hstep : updateOne db ({ uriVar := none, rows := [] } : UpdState) data
              = .ok { uriVar := some u, rows := [{ scalarOverwrite cve data with references := rebuiltRefs db uris, bugs := rebuiltBugsList db bs u }] } := by
            simp only [updateOne, hcve, hb, href, hp, hu, rebuiltBugs, List.nil_append]
          refine ⟨{ scalarOverwrite cve data with references := rebuiltRefs db uris, bugs := rebuiltBugsList db bs u },
            ?_, rfl, rfl, rfl, rfl, rfl, rfl, rfl, rfl, rfl, rfl, rfl, rfl, rfl, rfl,
            rfl, rfl, ?_, ?_⟩
          · simp only [prepare_cves_to_update, List.foldlM_cons, hstep]
            rfl
          · intro hc
            cases hc
          · intro bs' uris' hb' href'
            injection hb' with hbs
            subst hbs
            injection href' with hus
            subst hus
            rw [hu]
            rfl
        · have hstep : updateOne db ({ uriVar := none, rows := [] } : UpdState) data
              = .ok { uriVar := some u, rows := [{ scalarOverwrite cve data with references := rebuiltRefs db uris, bugs := rebuiltBugsList db bs u, packages := pl.map (makePackage db) }] } := by
            simp only [updateOne, hcve, hb, href, hp, hu, rebuiltBugs, List.nil_append]
          refine ⟨{ scalarOverwrite cve data with references := rebuiltRefs db uris, bugs := rebuiltBugsList db bs u, packages := pl.map (makePackage db) },
            ?_, rfl, rfl, rfl, rfl, rfl, rfl, rfl, rfl, rfl, rfl, rfl, rfl, rfl, rfl,
            rfl, rfl, ?_, ?_⟩
          · simp only [prepare_cves_to_update, List.foldlM_cons, hstep]
            rfl
          · intro hc
            cases hc
          · intro bs' uris' hb' href'
            injection hb' with hbs
            subst hbs
            injection href' with hus
            subst hus
            rw [hu]
            rfl

theorem C3_update_overwrite_witness :
    (prepare_cves_to_update dbUpd [{ id := "X", status := some "active" }]).map
        (fun l => l.map (fun c => (c.status, c.references)))
      = .ok [(some ("active"), [CVERefAttached.existingRef ⟨1, "u"⟩])] := by
  have h := C3_update_overwrite_amended dbUpd ({ id := "X", status := some "active" })
    ({ id := "X", references := [.existingRef ⟨1, "u"⟩] }) (by decide) (Or.inl (by decide))
  rcases h with ⟨row, heq, _, hst, _, _, _, _, _, _, _, _, _, _, _, _, hrefs, _, _, _⟩
  rw [heq]
  simp only [Except.map, List.map]
  rw [hst, hrefs]
  decide

/-! ## C8 — unknown release codename aborts notice creation -/

/-- The first codename of the list that matches no stored release. -/
def firstBadCodename (db : DB) (l : List String) : Option String :=
  l.find? (fun cn => (db.releases.filter (fun r => r.codename == cn)).isEmpty)

theorem resolveReleases_badCodename (db : DB) (c : String) :
    ∀ (l : List String),
      (∀ cn ∈ l, (db.releases.filter (fun r => r.codename == cn)).length ≤ 1) →
      firstBadCodename db l = some c →
      resolveReleases db l = .error (.badCodename c) := by
  intro l
  induction l with
  | nil =>
    intro _ hbad
    cases hbad
  | cons cn rest ih =>
    intro huniq hbad
    unfold firstBadCodename at hbad
    rcases hp : (db.releases.filter (fun r => r.codename == cn)).isEmpty with _ | _
    · -- head codename resolves: recurse
      simp only [List.find?_cons, hp] at hbad
      have hlen := huniq cn (List.mem_cons_self _ _)
      have hone : ∃ r, db.releases.filter (fun r => r.codename == cn) = [r] := by
        rcases hf : db.releases.filter (fun r => r.codename == cn) with _ | ⟨r, t⟩
        · rw [hf] at hp
          cases hp
        · rw [hf] at hlen
          rcases t with _ | ⟨r', t'⟩
          · exact ⟨r, hf⟩
          · simp at hlen
      rcases hone with ⟨r, hr⟩
      have hrest := ih (fun x hx => huniq x (List.mem_cons_of_mem _ hx)) hbad
      unfold resolveReleases
      rw [hr, hrest]
      rfl
    · -- head codename resolves to nothing: NoResultFound caught here
      simp only [List.find?_cons, hp] at hbad
      injection hbad with hcc
      subst hcc
      have hnil : db.releases.filter (fun r => r.codename == cn) = [] :=
        List.isEmpty_iff.mp hp
      unfold resolveReleases
      rw [hnil]
      rfl

/-- C8: if every codename of the payload matches at most one stored release
(the store's uniqueness constraint) and some codename matches none, the
operation returns the 400 naming the first such codename and the store is
returned unchanged — nothing was written. -/
theorem C8_bad_codename_aborts (db : DB) (data : NoticeData) (outcome : CommitOutcome)
    (c : String)
    (huniq : ∀ cn ∈ data.releases.map Prod.fst,
      (db.releases.filter (fun r => r.codename == cn)).length ≤ 1)
    (hbad : firstBadCodename db (data.releases.map Prod.fst) = some c) :
    create_notice db data outcome
      = (db, .badRequest ("No release with codename: " ++ c ++ ".") none) := by
  have h := resolveReleases_badCodename db c (data.releases.map Prod.fst) huniq hbad
  simp only [create_notice, h]

theorem C8_bad_codename_witness :
    create_notice dbFocal dataWarty .success
      = (dbFocal, .badRequest ("No release with codename: warty.") none) :=
  C8_bad_codename_aborts dbFocal dataWarty .success ("warty") (by decide) (by decide)

/-! ## C10 — the stale `uri` variable in the bugs lookup -/

/-- C10, counterexample: a batch whose first update payload carries a
references list binds the function-scoped `uri` (its URI hits the existing
`CVEReference` row, so the rebuilt collection holds only mapped rows and the
flush goes through); the second payload, with a non-empty bugs list and no
references key, then raises no `NameError` — the call returns 200, and its
bug lookup silently matched the leftover reference URI `"r1"`, committing the
wrong existing `Bug` row instead of one for `"b1"`. -/
theorem C10_earlier_refs_bind_uri :
    (bulk_upsert_cve dbAB batchAB .success).2
        = ApiResp.ok 200 ("Successfully finished bulk upserting session") ∧
    (((bulk_upsert_cve dbAB batchAB .success).1.cves.find? (fun c => c.id == "A")).map
        (fun c => c.references)) = some [CVERefAttached.existingRef ⟨3, "r1"⟩] ∧
    (((bulk_upsert_cve dbAB batchAB .success).1.cves.find? (fun c => c.id == "B")).map
        (fun c => c.bugs)) = some [BugAttached.existingBug ⟨7, "r1"⟩] := by
  decide

theorem updFold_nameError (db : DB) :
    ∀ (l : List CVEPayload) (st : UpdState),
      st.uriVar = none →
      (∀ p ∈ l, truthyList p.references = none) →
      (∀ p ∈ l, (db.getCVE p.id).isSome) →
      (∃ p ∈ l, truthyList p.bugs ≠ none) →
      l.foldlM (updateOne db) st = .error (.nameError ("uri")) := by
  intro l
  induction l with
  | nil =>
    intro st _ _ _ hbug
    rcases hbug with ⟨p, hp, _⟩
    cases hp
  | cons p rest ih =>
    intro st hst href hex hbug
    rcases Option.isSome_iff_exists.mp (hex p (List.mem_cons_self _ _)) with ⟨cve, hcve⟩
    have hrefp := href p (List.mem_cons_self _ _)
    rcases hb : truthyList p.bugs with _ | bs
    · -- this payload has no truthy bugs: step succeeds with `uri` still unbound
      obtain ⟨st', hst', hvar⟩ :
          ∃ st', updateOne db st p = .ok st' ∧ st'.uriVar = st.uriVar := by
        rcases hpk : truthyList p.packages with _ | pl <;>
          simp only [updateOne, hcve, hrefp, hb, hpk] <;>
          exact ⟨_, rfl, rfl⟩
      have hrest : ∃ q ∈ rest, truthyList q.bugs ≠ none := by
        rcases hbug with ⟨q, hq, hqb⟩
        rcases List.mem_cons.mp hq with rfl | hq'
        · exact absurd hb hqb
        · exact ⟨q, hq', hqb⟩
      rw [List.foldlM_cons, hst']
      simpa using ih st' (hvar.trans hst)
        (fun x hx => href x (List.mem_cons_of_mem _ hx))
        (fun x hx => hex x (List.mem_cons_of_mem _ hx)) hrest
    · -- truthy bugs with `uri` unbound: NameError
      have hstep : updateOne db st p = .error (.nameError ("uri")) := by
        simp only [updateOne, hcve, hrefp, hb, hst, rebuiltBugs]
      rw [List.foldlM_cons, hstep]
      rfl

/-- C10, amended: the bug lookup queries by the variable bound in the
references loop.  When no payload up to and including this one in the same
call carried a non-empty references list, an update payload with a non-empty
bugs list makes the whole call fail with the unhandled `NameError`; when an
earlier payload bound the variable, no `NameError` is raised and the lookup
silently uses that leftover URI instead (the counterexample commits the wrong
`Bug` row that way — whether such a call then succeeds still depends on the
rest of the flush). -/
theorem C10_name_error_amended (db : DB) (cves_data : List CVEPayload)
    (outcome : CommitOutcome)
    (hex : ∀ d ∈ cves_data, (db.getCVE d.id).isSome)
    (href : ∀ d ∈ cves_data, truthyList d.references = none)
    (hbug : ∃ d ∈ cves_data, truthyList d.bugs ≠ none) :
    bulk_upsert_cve db (.arr cves_data) outcome = (db, .unhandled (.nameError ("uri"))) := by
  have hfilter : cves_data.filter (fun d => (db.getCVE d.id).isSome) = cves_data :=
    List.filter_eq_self.mpr hex
  have hfold := updFold_nameError db cves_data ({ uriVar := none, rows := [] } : UpdState)
    rfl href hex hbug
  simp only [bulk_upsert_cve, hfilter, prepare_cves_to_update, hfold]

def dbOnlyB : DB := { cves := [{ id := "B" }] }

theorem C10_name_error_witness :
    bulk_upsert_cve dbOnlyB (.arr [{ id := "B", bugs := some ["b"] }]) .success
      = (dbOnlyB, .unhandled (.nameError ("uri"))) :=
  C10_name_error_amended dbOnlyB [{ id := "B", bugs := some ["b"] }] .success
    (by decide) (by decide) ⟨{ id := "B", bugs := some ["b"] }, by decide, by decide⟩

/-! ## Order and collection lemmas used for the view-assembly claims -/

theorem charListLt_irrefl : ∀ (a : List Char), charListLt a a = false := by
  intro a
  induction a with
  | nil => rfl
  | cons x xs ih =>
    simp only [charListLt]
    rw [if_neg (lt_irrefl x), if_neg (lt_irrefl x)]
    exact ih

theorem charListLt_trans : ∀ (a b c : List Char),
    charListLt a b = true → charListLt b c = true → charListLt a c = true := by
  intro a
  induction a with
  | nil =>
    intro b c hab hbc
    cases b with
    | nil => cases hab
    | cons y ys =>
      cases c with
      | nil => cases hbc
      | cons z zs => rfl
  | cons x xs ih =>
    intro b c hab hbc
    cases b with
    | nil => cases hab
    | cons y ys =>
      cases c with
      | nil => cases hbc
      | cons z zs =>
        simp only [charListLt] at hab hbc ⊢
        by_cases hxy : x < y
        · by_cases hyz : y < z
          · rw [if_pos (lt_trans hxy hyz)]
          · rw [if_neg hyz] at hbc
            by_cases hzy : z < y
            · rw [if_pos hzy] at hbc
              cases hbc
            · rw [if_neg hzy] at hbc
              have hyz' : y = z := le_antisymm (not_lt.mp hzy) (not_lt.mp hyz)
              subst hyz'
              rw [if_pos hxy]
        · rw [if_neg hxy] at hab
          by_cases hyx : y < x
          · rw [if_pos hyx] at hab
            cases hab
          · rw [if_neg hyx] at hab
            have hxy' : x = y := le_antisymm (not_lt.mp hyx) (not_lt.mp hxy)
            subst hxy'
            by_cases hxz : x < z
            · rw [if_pos hxz]
            · rw [if_neg hxz] at hbc ⊢
              by_cases hzx : z < x
              · rw [if_pos hzx] at hbc
                cases hbc
              · rw [if_neg hzx] at hbc ⊢
                exact ih ys zs hab hbc

theorem charListLt_connex : ∀ (a b : List Char),
    charListLt a b = false → charListLt b a = false → a = b := by
  intro a
  induction a with
  | nil =>
    intro b hab _
    cases b with
    | nil => rfl
    | cons y ys => cases hab
  | cons x xs ih =>
    intro b hab hba
    cases b with
    | nil => cases hba
    | cons y ys =>
      simp only [charListLt] at hab hba
      by_cases hxy : x < y
      · rw [if_pos hxy] at hab
        cases hab
      · by_cases hyx : y < x
        · rw [if_pos hyx] at hba
          cases hba
        · rw [if_neg hxy, if_neg hyx] at hab
          rw [if_neg hyx, if_neg hxy] at hba
          have hxy' : x = y := le_antisymm (not_lt.mp hyx) (not_lt.mp hxy)
          subst hxy'
          rw [ih ys hab hba]

theorem strLt_trans (a b c : String) (h1 : strLt a b = true) (h2 : strLt b c = true) :
    strLt a c = true :=
  charListLt_trans a.data b.data c.data h1 h2

theorem strLt_total (a b : String) : strLt a b = true ∨ strLt b a = true ∨ a = b := by
  rcases h1 : strLt a b with _ | _
  · rcases h2 : strLt b a with _ | _
    · rcases a with ⟨da⟩
      rcases b with ⟨db'⟩
      exact Or.inr (Or.inr (congrArg String.mk (charListLt_connex da db' h1 h2)))
    · exact Or.inr (Or.inl rfl)
  · exact Or.inl rfl

theorem strLt_irrefl (a : String) : strLt a a = false :=
  charListLt_irrefl a.data

theorem strLt_asymm (a b : String) (h : strLt a b = true) : strLt b a = false := by
  rcases h2 : strLt b a with _ | _
  · rfl
  · have := strLt_trans a b a h h2
    rw [strLt_irrefl] at this
    cases this

theorem keys_dictAppend (m : List (String × List β)) (k : String) (x : β) :
    (dictAppend m k x).map Prod.fst = m.map Prod.fst := by
  induction m with
  | nil => rfl
  | cons p rest ih =>
    rcases p with ⟨k', l⟩
    simp only [dictAppend]
    by_cases h : (k' == k) = true
    · rw [if_pos h]
      simp only [List.map_cons]
    · rw [if_neg h]
      simp only [List.map_cons, ih]

theorem mem_keys_dictSet (m : List (String × β)) (k k' : String) (v : β) :
    k' ∈ (dictSet m k v).map Prod.fst ↔ k' ∈ m.map Prod.fst ∨ k' = k := by
  induction m with
  | nil => simp [dictSet]
  | cons p rest ih =>
    rcases p with ⟨k0, v0⟩
    simp only [dictSet]
    by_cases h : (k0 == k) = true
    · rw [if_pos h]
      have hk : k0 = k := by simpa using h
      subst hk
      simp only [List.map_cons, List.mem_cons]
      tauto
    · rw [if_neg h]
      simp only [List.map_cons, List.mem_cons, ih]
      tauto

theorem nodup_keys_dictSet (m : List (String × β)) (k : String) (v : β)
    (h : (m.map Prod.fst).Nodup) : ((dictSet m k v).map Prod.fst).Nodup := by
  induction m with
  | nil => simp [dictSet]
  | cons p rest ih =>
    rcases p with ⟨k0, v0⟩
    simp only [List.map_cons, List.nodup_cons] at h
    rcases h with ⟨hk0, hrest⟩
    simp only [dictSet]
    by_cases hb : (k0 == k) = true
    · rw [if_pos hb]
      have hk : k0 = k := by simpa using hb
      subst hk
      simp only [List.map_cons, List.nodup_cons]
      exact ⟨hk0, hrest⟩
    · rw [if_neg hb]
      simp only [List.map_cons, List.nodup_cons]
      refine ⟨?_, ih hrest⟩
      intro hc
      rcases (mem_keys_dictSet rest k k0 v).mp hc with hc' | hc'
      · exact hk0 hc'
      · exact hb (by simp [hc'])

theorem mem_setInsert (s : List String) (x y : String) :
    y ∈ setInsert s x ↔ y ∈ s ∨ y = x := by
  unfold setInsert
  by_cases h : x ∈ s
  · rw [if_pos h]
    constructor
    · exact Or.inl
    · rintro (hy | rfl)
      · exact hy
      · exact h
  · rw [if_neg h]
    simp

theorem nodup_setInsert (s : List String) (x : String) (h : s.Nodup) :
    (setInsert s x).Nodup := by
  unfold setInsert
  by_cases hm : x ∈ s
  · rw [if_pos hm]
    exact h
  · rw [if_neg hm]
    simp [List.nodup_append, h, hm]

theorem mem_foldl_setInsert (l : List String) : ∀ (s : List String) (y : String),
    y ∈ l.foldl setInsert s ↔ y ∈ s ∨ y ∈ l := by
  induction l with
  | nil =>
    intro s y
    simp
  | cons x xs ih =>
    intro s y
    simp only [List.foldl_cons, ih, mem_setInsert, List.mem_cons]
    tauto

theorem nodup_foldl_setInsert (l : List String) : ∀ (s : List String),
    s.Nodup → (l.foldl setInsert s).Nodup := by
  induction l with
  | nil =>
    intro s h
    exact h
  | cons x xs ih =>
    intro s h
    exact ih _ (nodup_setInsert _ _ h)

/-! ## Invariants of the notice-assembly fold -/

theorem innerFold_fst (version : String) (sources : List (String × PkgInfo)) :
    ∀ (np : List String) (rp : List (String × List (String × PkgInfo))),
      (sources.foldl (fun acc src => (setInsert acc.1 (pkgString src.1 src.2),
          dictAppend acc.2 version (src.1, src.2))) (np, rp)).1
        = (sources.map (fun src => pkgString src.1 src.2)).foldl setInsert np := by
  induction sources with
  | nil =>
    intro np rp
    rfl
  | cons s ss ih =>
    intro np rp
    simp only [List.foldl_cons, List.map_cons]
    exact ih _ _

theorem innerFold_snd_keys (version : String) (sources : List (String × PkgInfo)) :
    ∀ (np : List String) (rp : List (String × List (String × PkgInfo))),
      ((sources.foldl (fun acc src => (setInsert acc.1 (pkgString src.1 src.2),
          dictAppend acc.2 version (src.1, src.2))) (np, rp)).2).map Prod.fst
        = rp.map Prod.fst := by
  induction sources with
  | nil =>
    intro np rp
    rfl
  | cons s ss ih =>
    intro np rp
    simp only [List.foldl_cons]
    rw [ih, keys_dictAppend]

/-- The four invariants the `notice.packages` loop maintains: the flat package
set stays duplicate-free, the grouped dict's keys stay duplicate-free, and
each collection contains exactly the strings / version keys generated by the
processed entries. -/
theorem assembleFold_props (db : DB) (entries : List (String × ReleasePkgBlob)) :
    ∀ (st res : List String × List (String × List (String × PkgInfo))),
      entries.foldlM (assembleStep db) st = .ok res →
      (st.1.Nodup → res.1.Nodup) ∧
      ((st.2.map Prod.fst).Nodup → (res.2.map Prod.fst).Nodup) ∧
      (∀ y, y ∈ res.1 ↔ y ∈ st.1 ∨ ∃ e ∈ entries, ∃ src ∈ (e.2.sources.getD []),
        y = pkgString src.1 src.2) ∧
      (∀ k, k ∈ res.2.map Prod.fst ↔ k ∈ st.2.map Prod.fst ∨ ∃ e ∈ entries,
        assembleRelease db e.1 = .ok k) := by
  induction entries with
  | nil =>
    intro st res h
    simp only [List.foldlM_nil] at h
    injection h with h
    subst h
    refine ⟨id, id, ?_, ?_⟩ <;> simp
  | cons e rest ih =>
    intro st res h
    rw [List.foldlM_cons] at h
    rcases hstep : assembleStep db st e with err | st'
    · rw [hstep] at h
      cases h
    · rw [hstep] at h
      have h' : rest.foldlM (assembleStep db) st' = .ok res := h
      obtain ⟨hn1, hn2, hm1, hm2⟩ := ih st' res h'
      unfold assembleStep at hstep
      rcases hver : assembleRelease db e.1 with ve | version
      · rw [hver] at hstep
        cases hstep
      · rw [hver] at hstep
        injection hstep with hst'
        subst hst'
        refine ⟨?_, ?_, ?_, ?_⟩
        · intro hnd
          apply hn1
          rw [innerFold_fst]
          exact nodup_foldl_setInsert _ _ hnd
        · intro hnd
          apply hn2
          rw [innerFold_snd_keys]
          exact nodup_keys_dictSet _ _ _ hnd
        · intro y
          rw [hm1 y, innerFold_fst, mem_foldl_setInsert]
          simp only [List.mem_map, List.exists_mem_cons_iff]
          constructor
          · rintro ((hy | ⟨src, hsrc, rfl⟩) | hy)
            · exact Or.inl hy
            · exact Or.inr (Or.inl ⟨src, hsrc, rfl⟩)
            · exact Or.inr (Or.inr hy)
          · rintro (hy | (⟨src, hsrc, rfl⟩ | hy))
            · exact Or.inl (Or.inl hy)
            · exact Or.inl (Or.inr ⟨src, hsrc, rfl⟩)
            · exact Or.inr hy
        · intro k
          rw [hm2 k, innerFold_snd_keys, mem_keys_dictSet]
          simp only [List.exists_mem_cons_iff]
          constructor
          · rintro ((hk | rfl) | hk)
            · exact Or.inl hk
            · exact Or.inr (Or.inl hver)
            · exact Or.inr (Or.inr hk)
          · rintro (hk | (hk | hk))
            · exact Or.inl (Or.inl hk)
            · rw [hver] at hk
              injection hk with hk
              exact Or.inl (Or.inr hk.symm)
            · exact Or.inr hk

/-! ## C5 — notice view assembly: grouping, ordering, dedup -/

/-- The numeric major component of a version string (`"10.04"` ↦ `10`). -/
def versionMajor (s : String) : Nat :=
  (s.data.takeWhile Char.isDigit).foldl (fun n c => n * 10 + (c.toNat - 48)) 0

/-- C5, counterexample: the release grouping is ordered by *string* comparison
of the version keys, descending; with Karmic (9.10) and Lucid (10.04) the
assembled keys come out `["9.10", "10.04"]` although 10.04 is the numerically
greater version, so the claimed numeric ordering does not hold. -/
theorem C5_lexicographic_not_numeric :
    (assembleNotice (fun s => s) dbKL nKL).map (fun v => v.releases_packages.map Prod.fst)
        = .ok ["9.10", "10.04"] ∧
    versionMajor ("9.10") < versionMajor ("10.04") := by
  decide

/-- C5, amended: for a notice whose packages mapping resolves, the assembled
grouping is keyed by exactly the version strings the codenames resolve to,
ordered descending by *lexicographic string* comparison (which agrees with
the numeric order on the Focal/Xenial example), and the flat packages set
contains each generated "name - description" (or bare name) string exactly
once. -/
theorem C5_assembly_amended (md : String → String) (db : DB) (n : NoticeRow)
    (v : NoticeView) (h : assembleNotice md db n = .ok v) :
    v.releases_packages.Pairwise (fun a b => strLt b.1 a.1 = true) ∧
    v.packages.Nodup ∧
    (∀ s, s ∈ v.packages ↔ ∃ e ∈ n.packages, ∃ src ∈ (e.2.sources.getD []),
      s = pkgString src.1 src.2) ∧
    (∀ k, k ∈ v.releases_packages.map Prod.fst ↔ ∃ e ∈ n.packages,
      assembleRelease db e.1 = .ok k) := by
  unfold assembleNotice at h
  rcases hfold : n.packages.foldlM (assembleStep db)
      (([], []) : List String × List (String × List (String × PkgInfo))) with e | st
  · rw [hfold] at h
    cases h
  · rw [hfold] at h
    rcases hins : n.instructions with _ | ins
    · rw [hins] at h
      cases h
    · rw [hins] at h
      injection h with h
      subst h
      obtain ⟨hn1, hn2, hm1, hm2⟩ := assembleFold_props db n.packages _ _ hfold
      have hkeysNodup : (st.2.map Prod.fst).Nodup := hn2 (by simp)
      have hperm : (releasesPackagesSort st.2).Perm st.2 :=
        List.perm_insertionSort _ _
      have hkeysPerm : ((releasesPackagesSort st.2).map Prod.fst).Perm
          (st.2.map Prod.fst) := hperm.map _
      haveI htr : IsTrans (String × List (String × PkgInfo)) verGe := by
        constructor
        intro a b c hab hbc
        unfold verGe at hab hbc ⊢
        by_contra hac
        have hac' : strLt a.1 c.1 = true := by
          rcases hx : strLt a.1 c.1 with _ | _
          · exact absurd hx hac
          · rfl
        rcases strLt_total b.1 a.1 with hba | hba | hba
        · have := strLt_trans b.1 a.1 c.1 hba hac'
          rw [hbc] at this
          cases this
        · rw [hab] at hba
          cases hba
        · rw [hba] at hbc
          rw [hbc] at hac'
          cases hac'
      haveI hto : IsTotal (String × List (String × PkgInfo)) verGe := by
        constructor
        intro a b
        rcases hab : strLt a.1 b.1 with _ | _
        · exact Or.inl hab
        · exact Or.inr (strLt_asymm a.1 b.1 hab)
      have hsorted : (releasesPackagesSort st.2).Pairwise verGe := by
        unfold releasesPackagesSort
        exact List.sorted_insertionSort verGe st.2
      have hkeysNodup' : ((releasesPackagesSort st.2).map Prod.fst).Nodup :=
        (hkeysPerm.nodup_iff).mpr hkeysNodup
      have hne : (releasesPackagesSort st.2).Pairwise (fun a b => a.1 ≠ b.1) :=
        (List.pairwise_map).mp hkeysNodup'
      refine ⟨?_, hn1 (by simp), ?_, ?_⟩
      · have hand := hsorted.and hne
        refine hand.imp ?_
        intro a b hab
        rcases hab with ⟨h1, h2⟩
        unfold verGe at h1
        rcases strLt_total b.1 a.1 with hx | hx | hx
        · exact hx
        · rw [h1] at hx
          cases hx
        · exact absurd hx.symm h2
      · intro s
        rw [hm1 s]
        simp
      · intro k
        rw [hkeysPerm.mem_iff, hm2 k]
        simp

/-- The store resolving the specification's Focal/Xenial example, and the
view its assembly computes (identity markdown renderer). -/
def vXF : NoticeView where
  id := "2"
  title := ""
  published := ⟨""⟩
  summary := ""
  isummary := none
  details := ""
  instructions := ""
  packages := ["pkgA - d", "pkgA"]
  releases_packages := [("20.04", [("pkgA", { description := some "d" })]),
                        ("16.04", [("pkgA", { description := none })])]
  releases := []
  cves := []
  references := []

theorem C5_assembly_witness :
    assembleNotice (fun s => s) dbXF nXF = .ok vXF ∧
    vXF.packages.Nodup ∧
    vXF.releases_packages.Pairwise (fun a b => strLt b.1 a.1 = true) := by
  have heq : assembleNotice (fun s => s) dbXF nXF = .ok vXF := by decide
  have h := C5_assembly_amended (fun s => s) dbXF nXF vXF heq
  exact ⟨heq, h.2.1, h.1⟩

/-! ## C7 — exact CVE-id search redirects, otherwise substring search -/

theorem cvePattern_ne_nil (s : String) (h : cvePatternMatch (strUpper s) = true) :
    s.data.isEmpty = false := by
  cases hd : s.data with
  | nil =>
    have hz : strUpper s = ⟨[]⟩ := by
      unfold strUpper
      rw [hd]
      rfl
    rw [hz] at h
    exact absurd h (by decide)
  | cons a t => rfl

/-- C7: when the stripped query uppercases to an exact CVE-id pattern, the
index redirects to `/security/<lowercased query>` exactly when a CVE with the
uppercased id exists; otherwise it renders the normal search page, every CVE
of which passes the case-insensitive description-substring filter. -/
theorem C7_cve_id_redirect (db : DB) (order_by q : String)
    (priority package : Option String) (limit offset : Nat)
    (hpat : cvePatternMatch (strUpper (pyStrip q)) = true) :
    ((db.getCVE (strUpper (pyStrip q))).isSome = true →
      cve_index db order_by q priority package limit offset
        = .redirect ("/security/" ++ strLower (pyStrip q))) ∧
    ((db.getCVE (strUpper (pyStrip q))).isSome = false →
      cve_index db order_by q priority package limit offset
        = .page (cveIndexPageFor db order_by (pyStrip q) priority package limit offset) ∧
      ∀ c ∈ (cveIndexPageFor db order_by (pyStrip q) priority package limit offset).cves,
        descMatches c (pyStrip q) = true) := by
  constructor
  · intro hs
    simp only [cve_index, hpat, hs, Bool.and_self, if_true]
  · intro hn
    constructor
    · simp only [cve_index, hpat, hn, Bool.and_false, Bool.false_eq_true, if_false]
    · intro c hc
      have hq := cvePattern_ne_nil (pyStrip q) hpat
      have h2 := List.take_subset _ _ hc
      have h3 := List.drop_subset _ _ h2
      have h1 : c ∈ cvesFiltered db (pyStrip q) priority package := by
        unfold sortCves at h3
        split at h3 <;> exact (List.mem_insertionSort _).mp h3
      unfold cvesFiltered at h1
      rw [hq] at h1
      simp only [Bool.false_eq_true, if_false] at h1
      exact (List.mem_filter.mp h1).2

def dbCve : DB := { cves := [{ id := "CVE-2020-10535" }] }

theorem C7_cve_id_redirect_witness :
    cve_index dbCve "oldest" ("cve-2020-10535") none none 20 0
        = .redirect ("/security/cve-2020-10535") ∧
    cve_index ({} : DB) "oldest" ("CVE-2020-10535") none none 20 0
        = .page (cveIndexPageFor {} "oldest" (pyStrip ("CVE-2020-10535")) none none 20 0) := by
  constructor
  · exact (C7_cve_id_redirect dbCve "oldest" ("cve-2020-10535") none none 20 0
      (by decide)).1 (by decide)
  · exact ((C7_cve_id_redirect ({} : DB) "oldest" ("CVE-2020-10535") none none 20 0
      (by decide)).2 (by decide)).1

/-! ## C9 — CVE back-links strip the `CVE-` prefix -/

/-- C9: creating a notice whose references contain `"CVE-2020-10535"` links a
CVE whose id is `"2020-10535"` — `ref[4:]` strips the canonical prefix — so
no CVE with the canonical id `"CVE-2020-10535"` exists afterwards, although
the repository's own seed data and lookups use prefixed ids throughout. -/
theorem C9_cve_prefix_stripped :
    ((create_notice dbFocal dataCveRef .success).1.notices.map (fun n => n.cves))
        = [[CVEAttach.created ("2020-10535")]] ∧
    ((create_notice dbFocal dataCveRef .success).1.cves.map (fun c => c.id))
        = ["2020-10535"] ∧
    (create_notice dbFocal dataCveRef .success).1.getCVE ("CVE-2020-10535") = none ∧
    (create_notice dbFocal dataCveRef .success).2 = ApiResp.ok 201 ("Notice created") := by
  decide

end Usn
